import Mathlib

/-
Verification of the nb-utils adapter layer: a shallow embedding of
`src/lib.rs` and `src/std.rs`.  The three-outcome result `nb::Result<T, E>`
is `NbResult T E`; the task context is modelled as a wake counter; futures
and streams are modelled by their poll step functions with explicit state
passing (the polling closure `FnMut() -> nb::Result<T, E>` becomes a pure
state-passing function `S → NbResult T E × S`).
-/

set_option autoImplicit false

namespace NbUtils

/-- Embedding of `nb::Error<E>`: `WouldBlock` carries no payload, `Other`
carries the caller-defined error. -/
inductive NbError (E : Type) where
  | wouldBlock : NbError E
  | other (e : E) : NbError E
  deriving DecidableEq

/-- Embedding of `nb::Result<T, E> = Result<T, nb::Error<E>>`. -/
inductive NbResult (T E : Type) where
  | ok (t : T) : NbResult T E
  | err (e : NbError E) : NbResult T E
  deriving DecidableEq

/-- Embedding of `NbResultExt::wait` (src/lib.rs lines 46-57): on `Ok(value)`
keeps the value when the predicate holds, otherwise becomes `WouldBlock`;
any error passes through unchanged. -/
def wait {T E : Type} (r : NbResult T E) (pred : T → Bool) : NbResult T E :=
  match r with
  | .ok value => if pred value then .ok value else .err .wouldBlock
  | other => other

/-- Embedding of `NbResultExt::wait_map` (src/lib.rs lines 59-71): on
`Ok(value)` applies the transform, `Some` becomes `Ok`, `None` becomes
`WouldBlock`; both error shapes are rebuilt with the same tag. -/
def wait_map {T U E : Type} (r : NbResult T E) (pred : T → Option U) : NbResult U E :=
  match r with
  | .ok value =>
    match pred value with
    | some value => .ok value
    | none => .err .wouldBlock
  | .err (.other o) => .err (.other o)
  | .err .wouldBlock => .err .wouldBlock

/-- Embedding of `NbResultExt::if_ready` (src/lib.rs lines 73-83).  The Rust
consumer `FnOnce(T) -> Result<(), U>` is `act : T → Except U Unit` and the
`E: From<U>` bound is the explicit conversion `efrom`. -/
def if_ready {T E U : Type} (r : NbResult T E) (act : T → Except U Unit)
    (efrom : U → E) : Except E Unit :=
  match r with
  | .err (.other e) => .error e
  | .err .wouldBlock => .ok ()
  | .ok value =>
    match act value with
    | .ok u => .ok u
    | .error e2 => .error (efrom e2)

/-- Result of a call that either returns normally or aborts the task with a
panic message; used to embed `panic!`. -/
inductive PanicOr (A : Type) where
  | value (a : A) : PanicOr A
  | panicked (msg : String) : PanicOr A
  deriving DecidableEq

/-- Embedding of `NbResultExt::expect_ok` (src/lib.rs lines 85-95).  The
`E: Debug` bound is the explicit rendering `dbgFmt`; the Rust
`panic!("{msg} {error:?}")` becomes `PanicOr.panicked` carrying the
formatted message. -/
def expect_ok {T E : Type} (r : NbResult T E) (dbgFmt : E → String)
    (msg : String) : PanicOr (Option T) :=
  match r with
  | .ok value => .value (some value)
  | .err .wouldBlock => .value none
  | .err (.other error) => .panicked (msg ++ " " ++ dbgFmt error)

/-- Embedding of `NbResultExt::is_would_block` (src/lib.rs lines 108-110). -/
def is_would_block {T E : Type} (r : NbResult T E) : Bool :=
  match r with
  | .err .wouldBlock => true
  | _ => false

/-- Embedding of `core::task::Poll`. -/
inductive Poll (A : Type) where
  | ready (a : A) : Poll A
  | pending : Poll A
  deriving DecidableEq

/-- Embedding of `Poll::map`, which transforms only the `Ready` payload. -/
def Poll.map {A B : Type} (f : A → B) : Poll A → Poll B
  | .ready a => .ready (f a)
  | .pending => .pending

/-- Embedding of `core::task::Context`: the only operation the library uses
is `ctx.waker().wake_by_ref()`, so the context is a count of wake
requests. -/
structure Context where
  wakeCount : Nat
  deriving DecidableEq

/-- Embedding of `ctx.waker().wake_by_ref()`: records one wake request. -/
def wake_by_ref (ctx : Context) : Context :=
  { wakeCount := ctx.wakeCount + 1 }

/-- Embedding of `NbResultExt::into_poll` (src/lib.rs lines 97-106): returns
the poll result together with the context after any wake request. -/
def into_poll {T E : Type} (r : NbResult T E) (ctx : Context) :
    Poll (Except E T) × Context :=
  match r with
  | .ok output => (.ready (.ok output), ctx)
  | .err (.other err) => (.ready (.error err), ctx)
  | .err .wouldBlock => (.pending, wake_by_ref ctx)

/-- Embedding of `std::io::ErrorKind` (a representative set of kinds plus a
catch-all numbered kind; the classifier only distinguishes `WouldBlock`
from everything else). -/
inductive ErrorKind where
  | wouldBlock : ErrorKind
  | notFound : ErrorKind
  | permissionDenied : ErrorKind
  | timedOut : ErrorKind
  | interrupted : ErrorKind
  | otherKind (code : Nat) : ErrorKind
  deriving DecidableEq

/-- Embedding of `std::io::Error`: a kind plus an opaque payload standing
for the rest of the error value. -/
structure IoError where
  kind : ErrorKind
  payload : Nat
  deriving DecidableEq

/-- Embedding of `IntoNbResult::into_nb_result` (src/std.rs lines 13-21):
`std::io::Result<T>` is `Except IoError T`; the `Err(err) if err.kind() ==
ErrorKind::WouldBlock` guard becomes the conditional. -/
def into_nb_result {T : Type} (r : Except IoError T) : NbResult T IoError :=
  match r with
  | .ok value => .ok value
  | .error err =>
    if err.kind = ErrorKind.wouldBlock then .err .wouldBlock
    else .err (.other err)

/-- Poll step of the future built by `poll_nb_future` (src/lib.rs lines
115-120), namely `futures_util::future::poll_fn(move |ctx|
poll_fn().into_poll(ctx))`: every poll invokes the closure once and feeds
the fresh outcome through `into_poll`.  The closure's captured mutable
state is the explicit `s : S`. -/
def poll_nb_future_poll {S T E : Type} (poll_fn : S → NbResult T E × S)
    (s : S) (ctx : Context) : Poll (Except E T) × S × Context :=
  ((into_poll (poll_fn s).1 ctx).1, (poll_fn s).2, (into_poll (poll_fn s).1 ctx).2)

/-- Poll step of the stream built by `poll_nb_stream` (src/lib.rs lines
124-129), namely `futures_util::stream::poll_fn(move |ctx|
poll_fn().into_poll(ctx).map(Some))`. -/
def poll_nb_stream_poll {S T E : Type} (poll_fn : S → NbResult T E × S)
    (s : S) (ctx : Context) : Poll (Option (Except E T)) × S × Context :=
  ((into_poll (poll_fn s).1 ctx).1.map some, (poll_fn s).2,
    (into_poll (poll_fn s).1 ctx).2)

/-- Poll step of the future built by `yield_executor` (src/lib.rs lines
133-144): the captured `yielded` flag is the explicit state, initially
`false`. -/
def yield_executor_poll (yielded : Bool) (ctx : Context) :
    Poll Unit × Bool × Context :=
  if !yielded then (.pending, true, wake_by_ref ctx)
  else (.ready (), yielded, ctx)

/-- State of the polling closure after `n` invocations. -/
def closureStateAfter {S T E : Type} (poll_fn : S → NbResult T E × S)
    (s : S) : Nat → S
  | 0 => s
  | n + 1 => (poll_fn (closureStateAfter poll_fn s n)).2

/-- Outcome produced by the polling closure on its `n`-th invocation
(0-based). -/
def outcomeAt {S T E : Type} (poll_fn : S → NbResult T E × S) (s : S)
    (n : Nat) : NbResult T E :=
  (poll_fn (closureStateAfter poll_fn s n)).1

/-- Sequential run of the `poll_nb_future` future for `n` scheduler turns:
returns the poll result of the last turn together with the closure state
and the context after those turns.  At `n = 0` (no turn yet) the poll
component is a `pending` placeholder. -/
def futureRun {S T E : Type} (poll_fn : S → NbResult T E × S) (s : S)
    (ctx : Context) : Nat → Poll (Except E T) × S × Context
  | 0 => (.pending, s, ctx)
  | n + 1 =>
    poll_nb_future_poll poll_fn (futureRun poll_fn s ctx n).2.1
      (futureRun poll_fn s ctx n).2.2

/-- Instrumented closure that additionally counts its own invocations. -/
def countingClosure {S T E : Type} (poll_fn : S → NbResult T E × S) :
    Nat × S → NbResult T E × (Nat × S) :=
  fun p => ((poll_fn p.2).1, (p.1 + 1, (poll_fn p.2).2))

/-- Item the stream emits for one closure outcome: one item per
`Ready`/`Failed`, none for `WouldBlock`. -/
def itemOf {T E : Type} : NbResult T E → Option (Except E T)
  | .ok t => some (.ok t)
  | .err (.other e) => some (.error e)
  | .err .wouldBlock => none

/-- First `n` outcomes of the polling closure, in order. -/
def outcomesList {S T E : Type} (poll_fn : S → NbResult T E × S) (s : S) :
    Nat → List (NbResult T E)
  | 0 => []
  | n + 1 => outcomesList poll_fn s n ++ [outcomeAt poll_fn s n]

/-- Sequential run of the `poll_nb_stream` stream for `n` scheduler turns:
returns the closure state, the context, and the list of items emitted so
far (in emission order). -/
def streamRun {S T E : Type} (poll_fn : S → NbResult T E × S) (s : S)
    (ctx : Context) : Nat → S × Context × List (Except E T)
  | 0 => (s, ctx, [])
  | n + 1 =>
    ((poll_nb_stream_poll poll_fn (streamRun poll_fn s ctx n).1
        (streamRun poll_fn s ctx n).2.1).2.1,
      (poll_nb_stream_poll poll_fn (streamRun poll_fn s ctx n).1
        (streamRun poll_fn s ctx n).2.1).2.2,
      (streamRun poll_fn s ctx n).2.2 ++
        (match (poll_nb_stream_poll poll_fn (streamRun poll_fn s ctx n).1
            (streamRun poll_fn s ctx n).2.1).1 with
          | .ready (some item) => [item]
          | _ => []))

/-- Sequential run of the `yield_executor` future for `n` scheduler turns,
starting from the initial `yielded = false` state; returns the poll result
of the last turn, the flag, and the context.  At `n = 0` the poll component
is a `pending` placeholder. -/
def yieldRun (ctx : Context) : Nat → Poll Unit × Bool × Context
  | 0 => (.pending, false, ctx)
  | n + 1 => yield_executor_poll (yieldRun ctx n).2.1 (yieldRun ctx n).2.2

/-- C1: `into_poll` maps `Ok(t)` to `Poll::Ready(Ok(t))`, `Other(e)` to
`Poll::Ready(Err(e))` and `WouldBlock` to `Poll::Pending`, and it invokes
the waker (incrementing the wake count) exactly in the `WouldBlock` case
and in no other case. -/
theorem c1_into_poll_mapping {T E : Type} (t : T) (e : E) (r : NbResult T E)
    (ctx : Context) :
    into_poll (NbResult.ok t : NbResult T E) ctx
      = (Poll.ready (Except.ok t), ctx) ∧
    into_poll (NbResult.err (NbError.other e) : NbResult T E) ctx
      = (Poll.ready (Except.error e), ctx) ∧
    into_poll (NbResult.err NbError.wouldBlock : NbResult T E) ctx
      = (Poll.pending, wake_by_ref ctx) ∧
    (into_poll r ctx).2.wakeCount
      = ctx.wakeCount + (if is_would_block r then 1 else 0) := by
  refine ⟨rfl, rfl, rfl, ?_⟩
  cases r with
  | ok t => simp [into_poll, is_would_block]
  | err e => cases e <;> simp [into_poll, is_would_block, wake_by_ref]

/-- C4: `wait(p)` keeps `Ready(t)` when `p t` holds, turns it into
`WouldBlock` when it does not, and passes `WouldBlock` and `Failed(e)`
through unchanged; on the pass-through cases the result is the same for
every predicate, so the predicate is never consulted. -/
theorem c4_wait_mapping {T E : Type} (t : T) (e : E) (pred : T → Bool) :
    (pred t = true →
      wait (NbResult.ok t : NbResult T E) pred = NbResult.ok t) ∧
    (pred t = false →
      wait (NbResult.ok t : NbResult T E) pred
        = NbResult.err NbError.wouldBlock) ∧
    wait (NbResult.err NbError.wouldBlock) pred
      = (NbResult.err NbError.wouldBlock : NbResult T E) ∧
    wait (NbResult.err (NbError.other e)) pred
      = NbResult.err (NbError.other e) := by
  refine ⟨?_, ?_, rfl, rfl⟩ <;> intro h <;> simp [wait, h]

/-- Witness for C4 at the value 5 with the predicate testing equality
with 5. -/
theorem c4_wait_mapping_witness :
    wait (NbResult.ok 5) (fun v => v == 5) = (NbResult.ok 5 : NbResult Nat Nat) ∧
    wait (NbResult.ok 4) (fun v => v == 5)
      = (NbResult.err NbError.wouldBlock : NbResult Nat Nat) :=
  ⟨(c4_wait_mapping 5 (0 : Nat) (fun v => v == 5)).1 (by decide),
    (c4_wait_mapping 4 (0 : Nat) (fun v => v == 5)).2.1 (by decide)⟩

/-- C5: `wait_map(f)` maps `Ready(t)` to `Ready(u)` when `f t = Some u` and
to `WouldBlock` when `f t = None`; `Failed(e)` keeps the same error and
`WouldBlock` stays `WouldBlock`, and on those two cases the result is the
same for every transform, so the transform is never consulted. -/
theorem c5_wait_map_mapping {T U E : Type} (t : T) (u : U) (e : E)
    (pred : T → Option U) :
    (pred t = some u →
      wait_map (NbResult.ok t : NbResult T E) pred = NbResult.ok u) ∧
    (pred t = none →
      wait_map (NbResult.ok t : NbResult T E) pred
        = NbResult.err NbError.wouldBlock) ∧
    wait_map (NbResult.err (NbError.other e)) pred
      = (NbResult.err (NbError.other e) : NbResult U E) ∧
    wait_map (NbResult.err NbError.wouldBlock) pred
      = (NbResult.err NbError.wouldBlock : NbResult U E) := by
  refine ⟨?_, ?_, rfl, rfl⟩ <;> intro h <;> simp [wait_map, h]

/-- Witness for C5 with the transform sending 5 to `some "ready"` and
everything else to `none`. -/
theorem c5_wait_map_mapping_witness :
    wait_map (NbResult.ok 5)
        (fun v : Nat => if v = 5 then some "ready" else none)
      = (NbResult.ok "ready" : NbResult String Nat) ∧
    wait_map (NbResult.ok 4)
        (fun v : Nat => if v = 5 then some "ready" else none)
      = (NbResult.err NbError.wouldBlock : NbResult String Nat) :=
  ⟨(c5_wait_map_mapping 5 "ready" (0 : Nat)
      (fun v : Nat => if v = 5 then some "ready" else none)).1 (by decide),
    (c5_wait_map_mapping 4 "ready" (0 : Nat)
      (fun v : Nat => if v = 5 then some "ready" else none)).2.1 (by decide)⟩

/-- C6: `if_ready(consumer)` returns `Err(e)` on `Failed(e)` and `Ok(())` on
`WouldBlock`, in both cases with the same result for every consumer (so the
consumer is never invoked); on `Ready(t)` the result is exactly the
consumer applied to `t`, with a consumer error converted through the
`From` conversion. -/
theorem c6_if_ready_mapping {T E U : Type} (t : T) (e : E) (u : U)
    (act : T → Except U Unit) (efrom : U → E) :
    (∀ a : T → Except U Unit,
      if_ready (NbResult.err (NbError.other e)) a efrom = Except.error e) ∧
    (∀ a : T → Except U Unit,
      if_ready (NbResult.err NbError.wouldBlock) a efrom = Except.ok ()) ∧
    (act t = Except.ok () → if_ready (NbResult.ok t) act efrom = Except.ok ()) ∧
    (act t = Except.error u →
      if_ready (NbResult.ok t) act efrom = Except.error (efrom u)) := by
  refine ⟨fun a => rfl, fun a => rfl, ?_, ?_⟩ <;> intro h <;> simp [if_ready, h]

/-- Witness for C6 with a consumer accepting exactly the value 18. -/
theorem c6_if_ready_mapping_witness :
    if_ready (NbResult.ok 18)
        (fun v : Nat => if v = 18 then Except.ok () else Except.error "bad")
        (fun _ : String => (1 : Nat))
      = Except.ok () ∧
    if_ready (NbResult.ok 3)
        (fun v : Nat => if v = 18 then Except.ok () else Except.error "bad")
        (fun _ : String => (1 : Nat))
      = Except.error 1 :=
  ⟨(c6_if_ready_mapping 18 (0 : Nat) "bad"
      (fun v : Nat => if v = 18 then Except.ok () else Except.error "bad")
      (fun _ : String => (1 : Nat))).2.2.1 rfl,
    (c6_if_ready_mapping 3 (0 : Nat) "bad"
      (fun v : Nat => if v = 18 then Except.ok () else Except.error "bad")
      (fun _ : String => (1 : Nat))).2.2.2 rfl⟩

/-- C7: `expect_ok(msg)` returns `Some(t)` on `Ready(t)`, `None` on
`WouldBlock`, and panics exactly on `Failed(e)`, with a message made of the
supplied text and the debug rendering of `e`; conversely any panic came
from a `Failed` input with that exact message. -/
theorem c7_expect_ok_mapping {T E : Type} (t : T) (e : E)
    (dbgFmt : E → String) (msg : String) :
    expect_ok (NbResult.ok t : NbResult T E) dbgFmt msg
      = PanicOr.value (some t) ∧
    expect_ok (NbResult.err NbError.wouldBlock : NbResult T E) dbgFmt msg
      = PanicOr.value none ∧
    expect_ok (NbResult.err (NbError.other e) : NbResult T E) dbgFmt msg
      = PanicOr.panicked (msg ++ " " ++ dbgFmt e) ∧
    (∀ (r : NbResult T E) (m : String),
      expect_ok r dbgFmt msg = PanicOr.panicked m →
      ∃ e2, r = NbResult.err (NbError.other e2) ∧ m = msg ++ " " ++ dbgFmt e2) := by
  refine ⟨rfl, rfl, rfl, ?_⟩
  intro r m h
  match r with
  | .ok t2 => simp [expect_ok] at h
  | .err .wouldBlock => simp [expect_ok] at h
  | .err (.other e2) =>
    simp only [expect_ok, PanicOr.panicked.injEq] at h
    exact ⟨e2, rfl, h.symm⟩

/-- Witness for C7 at a concrete failed input with a constant debug
rendering. -/
theorem c7_expect_ok_mapping_witness :
    ∃ e2 : Nat,
      (NbResult.err (NbError.other 3) : NbResult Nat Nat)
          = NbResult.err (NbError.other e2) ∧
        "kaput" ++ " " ++ "E" = "kaput" ++ " " ++ (fun _ : Nat => "E") e2 :=
  (c7_expect_ok_mapping (0 : Nat) (3 : Nat) (fun _ : Nat => "E") "kaput").2.2.2
    (NbResult.err (NbError.other 3)) ("kaput" ++ " " ++ "E") rfl

/-- C9: `into_nb_result` maps `Ok(v)` to `Ready(v)` unchanged, a failure of
kind `WouldBlock` to `WouldBlock` (error discarded), and a failure of any
other kind to `Failed` carrying the original error unchanged. -/
theorem c9_into_nb_result_mapping {T : Type} (v : T) (err : IoError) :
    into_nb_result (Except.ok v) = (NbResult.ok v : NbResult T IoError) ∧
    (err.kind = ErrorKind.wouldBlock →
      into_nb_result (Except.error err)
        = (NbResult.err NbError.wouldBlock : NbResult T IoError)) ∧
    (err.kind ≠ ErrorKind.wouldBlock →
      into_nb_result (Except.error err)
        = (NbResult.err (NbError.other err) : NbResult T IoError)) := by
  refine ⟨rfl, ?_, ?_⟩ <;> intro h <;> simp [into_nb_result, h]

/-- Witness for C9 at a would-block failure and a not-found failure. -/
theorem c9_into_nb_result_mapping_witness :
    into_nb_result (Except.error ⟨ErrorKind.wouldBlock, 0⟩)
      = (NbResult.err NbError.wouldBlock : NbResult Nat IoError) ∧
    into_nb_result (Except.error ⟨ErrorKind.notFound, 7⟩)
      = (NbResult.err (NbError.other ⟨ErrorKind.notFound, 7⟩)
          : NbResult Nat IoError) :=
  ⟨(c9_into_nb_result_mapping (0 : Nat) ⟨ErrorKind.wouldBlock, 0⟩).2.1 (by decide),
    (c9_into_nb_result_mapping (0 : Nat) ⟨ErrorKind.notFound, 7⟩).2.2 (by decide)⟩

/-- After `n` scheduler turns the future's internal state is the closure
state after exactly `n` invocations: each turn invokes the closure exactly
once. -/
theorem futureRun_state {S T E : Type} (f : S → NbResult T E × S) (s : S)
    (ctx : Context) : ∀ n, (futureRun f s ctx n).2.1 = closureStateAfter f s n := by
  intro n
  induction n with
  | zero => rfl
  | succ n ih => simp [futureRun, poll_nb_future_poll, closureStateAfter, ih]

/-- While the closure keeps answering `WouldBlock`, each turn adds exactly
one wake request to the context. -/
theorem futureRun_block_wakes {S T E : Type} (f : S → NbResult T E × S)
    (s : S) (ctx : Context) (N : Nat)
    (hblock : ∀ i, i < N → outcomeAt f s i = NbResult.err NbError.wouldBlock) :
    ∀ k, k ≤ N → (futureRun f s ctx k).2.2 = ⟨ctx.wakeCount + k⟩ := by
  intro k
  induction k with
  | zero => intro _; rfl
  | succ k ih =>
    intro hk
    have hout : (f (futureRun f s ctx k).2.1).1 = NbResult.err NbError.wouldBlock := by
      rw [futureRun_state]
      exact hblock k (Nat.lt_of_succ_le hk)
    have hctx := ih (Nat.le_of_succ_le hk)
    simp [futureRun, poll_nb_future_poll, hout, into_poll, wake_by_ref, hctx,
      Nat.add_assoc]

/-- Poll result of turn `n + 1`: `into_poll` applied to the closure's
`n`-th outcome and the context left by the previous turns. -/
theorem futureRun_poll {S T E : Type} (f : S → NbResult T E × S) (s : S)
    (ctx : Context) (n : Nat) :
    (futureRun f s ctx (n + 1)).1
      = (into_poll (outcomeAt f s n) (futureRun f s ctx n).2.2).1 := by
  have hout : (f (futureRun f s ctx n).2.1).1 = outcomeAt f s n := by
    rw [futureRun_state]
    rfl
  simp [futureRun, poll_nb_future_poll, hout]

/-- C2: for a closure whose first `N` outcomes are `WouldBlock`, the future
built by `poll_nb_future` suspends on each of the first `N` turns with
exactly one wake request per turn, resolves on turn `N + 1` with `Ok(v)` or
`Err(e)` according to the closure's `N`-th outcome, and its state after `k`
turns is the closure state after exactly `k` invocations (one invocation
per turn). -/
theorem c2_poll_nb_future_resolution {S T E : Type} (f : S → NbResult T E × S)
    (s : S) (ctx : Context) (N : Nat) (v : T) (e : E)
    (hblock : ∀ i, i < N → outcomeAt f s i = NbResult.err NbError.wouldBlock) :
    (∀ i, i < N → (futureRun f s ctx (i + 1)).1 = Poll.pending ∧
      (futureRun f s ctx (i + 1)).2.2.wakeCount = ctx.wakeCount + (i + 1)) ∧
    (outcomeAt f s N = NbResult.ok v →
      (futureRun f s ctx (N + 1)).1 = Poll.ready (Except.ok v)) ∧
    (outcomeAt f s N = NbResult.err (NbError.other e) →
      (futureRun f s ctx (N + 1)).1 = Poll.ready (Except.error e)) ∧
    (∀ k, (futureRun f s ctx k).2.1 = closureStateAfter f s k) := by
  refine ⟨?_, ?_, ?_, futureRun_state f s ctx⟩
  · intro i hi
    constructor
    · rw [futureRun_poll, hblock i hi]
      rfl
    · rw [futureRun_block_wakes f s ctx N hblock (i + 1) (Nat.succ_le_of_lt hi)]
  · intro hN
    rw [futureRun_poll, hN]
    rfl
  · intro hN
    rw [futureRun_poll, hN]
    rfl

/-- Witness for C2 with the closure that blocks twice and then answers
`Ready(42)`: the future suspends on turn 1 and resolves on turn 3. -/
theorem c2_poll_nb_future_resolution_witness :
    (futureRun
        (fun n : Nat =>
          ((if n < 2 then NbResult.err NbError.wouldBlock else NbResult.ok 42
              : NbResult Nat Nat), n + 1))
        0 ⟨0⟩ 1).1 = Poll.pending ∧
    (futureRun
        (fun n : Nat =>
          ((if n < 2 then NbResult.err NbError.wouldBlock else NbResult.ok 42
              : NbResult Nat Nat), n + 1))
        0 ⟨0⟩ 3).1 = Poll.ready (Except.ok 42) := by
  have h := c2_poll_nb_future_resolution
    (fun n : Nat =>
      ((if n < 2 then NbResult.err NbError.wouldBlock else NbResult.ok 42
          : NbResult Nat Nat), n + 1))
    0 ⟨0⟩ 2 42 0 (by decide)
  exact ⟨(h.1 0 (by decide)).1, h.2.1 (by decide)⟩

/-- After `n` scheduler turns the stream's internal state is the closure
state after exactly `n` invocations. -/
theorem streamRun_state {S T E : Type} (f : S → NbResult T E × S) (s : S)
    (ctx : Context) : ∀ n, (streamRun f s ctx n).1 = closureStateAfter f s n := by
  intro n
  induction n with
  | zero => rfl
  | succ n ih => simp [streamRun, poll_nb_stream_poll, closureStateAfter, ih]

/-- C3: over any number of scheduler turns, the stream built by
`poll_nb_stream` emits exactly the `Ready`/`Failed` outcomes of the
closure, in order, as `Ok`/`Err` items (`itemOf` drops exactly the
`WouldBlock` outcomes); a poll of the stream suspends exactly when the
closure answers `WouldBlock`; and no poll ever yields `Ready(None)`, the
stream-termination signal. -/
theorem c3_poll_nb_stream_items {S T E : Type} (f : S → NbResult T E × S)
    (s : S) (ctx : Context) :
    (∀ k, (streamRun f s ctx k).2.2 = (outcomesList f s k).filterMap itemOf) ∧
    (∀ (s2 : S) (c2 : Context),
      (poll_nb_stream_poll f s2 c2).1 = Poll.pending ↔
        (f s2).1 = NbResult.err NbError.wouldBlock) ∧
    (∀ (s2 : S) (c2 : Context),
      (poll_nb_stream_poll f s2 c2).1 ≠ Poll.ready none) := by
  refine ⟨?_, ?_, ?_⟩
  · intro k
    induction k with
    | zero => rfl
    | succ n ih =>
      have hout : (f (streamRun f s ctx n).1).1 = outcomeAt f s n := by
        rw [streamRun_state]
        rfl
      simp only [streamRun, poll_nb_stream_poll, outcomesList,
        List.filterMap_append, hout, ih]
      cases houtcome : outcomeAt f s n with
      | ok t => simp [into_poll, Poll.map, itemOf]
      | err e2 => cases e2 <;> simp [into_poll, Poll.map, itemOf]
  · intro s2 c2
    cases h : (f s2).1 with
    | ok t => simp [poll_nb_stream_poll, h, into_poll, Poll.map]
    | err e2 => cases e2 <;> simp [poll_nb_stream_poll, h, into_poll, Poll.map]
  · intro s2 c2
    cases h : (f s2).1 with
    | ok t => simp [poll_nb_stream_poll, h, into_poll, Poll.map]
    | err e2 => cases e2 <;> simp [poll_nb_stream_poll, h, into_poll, Poll.map]

/-- Witness for C3 with the outcome sequence `WouldBlock`, `WouldBlock`,
`Ready(1)`, `WouldBlock`, `Ready(2)`: five turns emit exactly
`[Ok(1), Ok(2)]`, and a turn on a ready state is not pending. -/
theorem c3_poll_nb_stream_items_witness :
    (streamRun
        (fun n : Nat =>
          ((if n = 2 then NbResult.ok 1
            else if n = 4 then NbResult.ok 2
            else NbResult.err NbError.wouldBlock : NbResult Nat Nat), n + 1))
        0 ⟨0⟩ 5).2.2 = [Except.ok 1, Except.ok 2] ∧
    ¬(poll_nb_stream_poll
        (fun n : Nat =>
          ((if n = 2 then NbResult.ok 1
            else if n = 4 then NbResult.ok 2
            else NbResult.err NbError.wouldBlock : NbResult Nat Nat), n + 1))
        2 ⟨0⟩).1 = Poll.pending := by
  have h := c3_poll_nb_stream_items
    (fun n : Nat =>
      ((if n = 2 then NbResult.ok 1
        else if n = 4 then NbResult.ok 2
        else NbResult.err NbError.wouldBlock : NbResult Nat Nat), n + 1))
    0 ⟨0⟩
  constructor
  · rw [h.1 5]
    rfl
  · intro hpend
    have := (h.2.1 2 ⟨0⟩).1 hpend
    simp at this

/-- After the first turn the yield future's flag stays `true` and the
context never receives another wake request. -/
theorem yieldRun_flag (ctx : Context) :
    ∀ n, (yieldRun ctx (n + 1)).2 = (true, wake_by_ref ctx) := by
  intro n
  induction n with
  | zero => rfl
  | succ n ih =>
    have h1 : (yieldRun ctx (n + 1)).2.1 = true := by rw [ih]
    have h2 : (yieldRun ctx (n + 1)).2.2 = wake_by_ref ctx := by rw [ih]
    calc (yieldRun ctx (n + 1 + 1)).2
        = (yield_executor_poll (yieldRun ctx (n + 1)).2.1
            (yieldRun ctx (n + 1)).2.2).2 := rfl
      _ = (yield_executor_poll true (wake_by_ref ctx)).2 := by rw [h1, h2]
      _ = (true, wake_by_ref ctx) := rfl

/-- C8: the future built by `yield_executor` suspends on its first turn,
issuing exactly one wake request, and on every later turn (however many
times it is re-polled) it resolves with the unit value without suspending
again and without any further wake request. -/
theorem c8_yield_executor_once (ctx : Context) :
    yieldRun ctx 1 = (Poll.pending, true, wake_by_ref ctx) ∧
    (∀ n, 2 ≤ n → (yieldRun ctx n).1 = Poll.ready () ∧
      (yieldRun ctx n).2.2 = wake_by_ref ctx) := by
  refine ⟨rfl, ?_⟩
  intro n hn
  obtain ⟨m, rfl⟩ := Nat.exists_eq_add_of_le hn
  have h1 : (yieldRun ctx (m + 1)).2.1 = true := by rw [yieldRun_flag]
  have h2 : (yieldRun ctx (m + 1)).2.2 = wake_by_ref ctx := by rw [yieldRun_flag]
  have e : 2 + m = m + 1 + 1 := by omega
  rw [e]
  constructor
  · calc (yieldRun ctx (m + 1 + 1)).1
        = (yield_executor_poll (yieldRun ctx (m + 1)).2.1
            (yieldRun ctx (m + 1)).2.2).1 := rfl
      _ = (yield_executor_poll true (wake_by_ref ctx)).1 := by rw [h1, h2]
      _ = Poll.ready () := rfl
  · calc (yieldRun ctx (m + 1 + 1)).2.2
        = (yield_executor_poll (yieldRun ctx (m + 1)).2.1
            (yieldRun ctx (m + 1)).2.2).2.2 := rfl
      _ = (yield_executor_poll true (wake_by_ref ctx)).2.2 := by rw [h1, h2]
      _ = wake_by_ref ctx := rfl

/-- Witness for C8: from a fresh context, turn 2 and turn 7 both resolve,
and the wake count stays at the single wake of turn 1. -/
theorem c8_yield_executor_once_witness :
    (yieldRun ⟨0⟩ 2).1 = Poll.ready () ∧
    (yieldRun ⟨0⟩ 7).1 = Poll.ready () ∧
    (yieldRun ⟨0⟩ 7).2.2 = wake_by_ref ⟨0⟩ :=
  ⟨((c8_yield_executor_once ⟨0⟩).2 2 (by decide)).1,
    ((c8_yield_executor_once ⟨0⟩).2 7 (by decide)).1,
    ((c8_yield_executor_once ⟨0⟩).2 7 (by decide)).2⟩

/-- Count of invocations recorded by `countingClosure` after `k` closure
steps: exactly `k`, whatever the outcomes were. -/
theorem countingClosure_count {S T E : Type} (f : S → NbResult T E × S)
    (s : S) : ∀ k, (closureStateAfter (countingClosure f) (0, s) k).1 = k := by
  intro k
  induction k with
  | zero => rfl
  | succ k ih => simp [closureStateAfter, countingClosure, ih]

/-- C10: the `poll_nb_future` future is not fused.  Every poll — including
any poll after the future already resolved — invokes the closure exactly
once more: after `k` turns the instrumented closure has been called exactly
`k` times, whatever the outcomes were.  In particular, a closure failing
with `Other(7)` on its first call and answering `Ready(42)` afterwards
makes turn 1 resolve with `Err(7)` and a further poll on turn 2 invoke the
closure again and resolve with `Ok(42)`. -/
theorem c10_poll_nb_future_not_fused {S T E : Type} (f : S → NbResult T E × S)
    (s : S) (ctx : Context) :
    (∀ k, (futureRun (countingClosure f) (0, s) ctx k).2.1.1 = k) ∧
    (futureRun
        (fun n : Nat =>
          ((if n = 0 then NbResult.err (NbError.other 7) else NbResult.ok 42
              : NbResult Nat Nat), n + 1))
        0 ⟨0⟩ 1).1 = Poll.ready (Except.error 7) ∧
    (futureRun
        (fun n : Nat =>
          ((if n = 0 then NbResult.err (NbError.other 7) else NbResult.ok 42
              : NbResult Nat Nat), n + 1))
        0 ⟨0⟩ 2).1 = Poll.ready (Except.ok 42) := by
  refine ⟨?_, rfl, rfl⟩
  intro k
  rw [futureRun_state]
  exact countingClosure_count f s k

end NbUtils
